import Mathlib

/-!
# Verification of the crypto cost-basis analyzer (`src/analyzer.py`)

Shallow embedding of `CryptoAnalyzer` from `src/analyzer.py`.

Modelling conventions:
* A pandas row is a `Row` whose fields are the columns the analyzer reads.
  Nullable numeric cells (`pd.notna` checks in the source) are `Option ℚ`;
  numbers are exact rationals (the Python code uses floats, the claims are
  about the algebraic structure of the computation, not float rounding).
* The `日時` (timestamp) cell is `Option (Int × Int)`: a parsed datetime is
  ordered lexicographically by (year, time-within-year); `none` is `NaT`
  (unparsable).  `pd.to_datetime(..., errors to coerce).dt.year` is the first
  component.
* Python `pat in s` substring tests are `strHas s pat`.
* Python dicts that the code builds by `if k not in d: d[k] = init` /
  `d[k] += p` are association lists updated by `ensureKey` / `addAt`,
  preserving insertion order.  (Caveat, recorded here for honesty: with two
  or more NaT rows the Python code would create several distinct `nan` keys,
  because `nan != nan`; the embedding merges them under `none`.  No theorem
  below relies on an input with more than one NaT row reaching the dicts.)
* `sort_values('日時')` sorts ascending with `NaT` placed last
  (`na_position` default).  The pandas default sort kind leaves the order of
  ties unspecified; the embedding uses a stable insertion sort, fixing ties
  to input order.
-/

/-- Boolean list-prefix test, used to embed Python substring search. -/
def listPrefixOf : List Char → List Char → Bool
  | [], _ => true
  | _ :: _, [] => false
  | a :: as, b :: bs => a == b && listPrefixOf as bs

/-- Boolean list-infix test. -/
def listHas (pat : List Char) : List Char → Bool
  | [] => listPrefixOf pat []
  | b :: bs => listPrefixOf pat (b :: bs) || listHas pat bs

/-- Embedding of the Python test `pat in s` on strings. -/
def strHas (s pat : String) : Bool := listHas pat.data s.data

/-- One normalized transaction row, with exactly the columns
`CryptoAnalyzer` reads: 銘柄名, 日時, 精算区分, 授受区分, 売買区分, 数量,
約定数量, 約定レート, 日本円受渡金額, 注文手数料. -/
structure Row where
  meigara : String                 -- 銘柄名 (coin symbol)
  nichiji : Option (Int × Int)     -- 日時 (parsed datetime; none = NaT)
  seisan : String                  -- 精算区分 (settlement category)
  juju : String                    -- 授受区分 (transfer direction)
  baibai : String                  -- 売買区分 (trade side)
  suryo : Option ℚ                 -- 数量
  yakujoSuryo : Option ℚ           -- 約定数量
  yakujoRate : Option ℚ            -- 約定レート
  jpyUkewatashi : Option ℚ         -- 日本円受渡金額
  chumonTesuryo : Option ℚ         -- 注文手数料
  deriving DecidableEq

/-- Ascending order on parsed timestamps with `NaT` (`none`) last, matching
`sort_values('日時')` with the default `na_position`. -/
def keyLe : Option (Int × Int) → Option (Int × Int) → Bool
  | none, none => true
  | none, some _ => false
  | some _, none => true
  | some (y1, t1), some (y2, t2) => y1 < y2 || (y1 == y2 && t1 ≤ t2)

/-- Row comparison used by the replay sort. -/
def rowLe (r s : Row) : Prop := keyLe r.nichiji s.nichiji = true

instance : DecidableRel rowLe := fun r s => by
  unfold rowLe; infer_instance

instance : IsTotal Row rowLe := by
  constructor
  intro a b
  unfold rowLe keyLe
  rcases a.nichiji with _ | ⟨y1, t1⟩ <;> rcases b.nichiji with _ | ⟨y2, t2⟩ <;>
    simp <;> omega

instance : IsTrans Row rowLe := by
  constructor
  intro a b c
  unfold rowLe keyLe
  rcases a.nichiji with _ | ⟨y1, t1⟩ <;> rcases b.nichiji with _ | ⟨y2, t2⟩ <;>
    rcases c.nichiji with _ | ⟨y3, t3⟩ <;> simp <;> omega

section MapHelpers

variable {K V : Type} [BEq K]

/-- Embeds the Python idiom `if k not in d: d[k] = v` (insertion at the end,
as a Python dict preserves insertion order). -/
def ensureKey (m : List (K × V)) (k : K) (v : V) : List (K × V) :=
  if m.any (fun kv => kv.1 == k) then m else m ++ [(k, v)]

/-- Embeds `d[k] = f(d[k])` for a key already present: update in place. -/
def mapAt (m : List (K × V)) (k : K) (f : V → V) : List (K × V) :=
  m.map (fun kv => if kv.1 == k then (kv.1, f kv.2) else kv)

end MapHelpers

/-- Embeds `d[k] += p` for numeric-valued dicts. -/
def addAt [BEq K] (m : List (K × ℚ)) (k : K) (p : ℚ) : List (K × ℚ) :=
  mapAt m k (fun v => v + p)

/-! ## Mode B: `calculate_yearly_profit` (chronological replay) -/

/-- One entry of `coin_holdings`: `{'quantity': …, 'total_cost': …}`. -/
structure Holdings where
  quantity : ℚ
  total_cost : ℚ
  deriving DecidableEq

/-- Buy-side quantity/cost resolution of `calculate_yearly_profit`
(source lines 94-123).  `none` is the explicit `continue` taken when a
marketplace (販売所取引) buy has a settlement amount but no usable quantity. -/
def buyQtyCostY (r : Row) : Option (ℚ × ℚ) :=
  if strHas r.seisan "販売所取引" then
    match r.jpyUkewatashi with
    | some a =>
      match r.yakujoSuryo with
      | some q => some (q, |a|)
      | none =>
        match r.suryo with
        | some q => some (q, |a|)
        | none => none
    | none => some (0, 0)
  else if strHas r.seisan "取引所現物取引" then
    let quantity := match r.yakujoSuryo with
      | some q => q
      | none => 0
    let cost := match r.yakujoRate, r.yakujoSuryo with
      | some p, some _ => quantity * p
      | _, _ => 0
    let cost := match r.chumonTesuryo with
      | some f => cost + f
      | none => cost
    some (quantity, cost)
  else
    some (0, 0)

/-- Sell-side quantity/sale-amount resolution of `calculate_yearly_profit`
(source lines 130-159).  `none` is the `continue` for a marketplace sell
with a settlement amount but no usable quantity.  Note that in the
exchange-spot (取引所現物取引) branch the order fee, when present, is
subtracted from the sale amount even when the settlement amount is
present (lines 158-159). -/
def sellQtySaleY (r : Row) : Option (ℚ × ℚ) :=
  if strHas r.seisan "販売所取引" then
    match r.jpyUkewatashi with
    | some a =>
      match r.yakujoSuryo with
      | some q => some (q, a)
      | none =>
        match r.suryo with
        | some q => some (q, a)
        | none => none
    | none => some (0, 0)
  else if strHas r.seisan "取引所現物取引" then
    let quantity := match r.yakujoSuryo with
      | some q => q
      | none => 0
    let sale := match r.jpyUkewatashi with
      | some a => a
      | none =>
        match r.yakujoRate, r.yakujoSuryo with
        | some p, some _ => quantity * p
        | _, _ => 0
    let sale := match r.chumonTesuryo with
      | some f => sale - f
      | none => sale
    some (quantity, sale)
  else
    some (0, 0)

/-- The per-row ledger update of `calculate_yearly_profit` (source lines
72-178, everything after the bookkeeping that initializes the dicts):
given the coin's holdings it returns the new holdings and the realized
profit this row records (0 when no profit is recorded). -/
def yearlyRowUpdate (h : Holdings) (r : Row) : Holdings × ℚ :=
  if r.seisan = "暗号資産預入・送付" ∧ r.juju = "預入" then
    match r.suryo with
    | some q => if q > 0 then (⟨h.quantity + q, h.total_cost⟩, 0) else (h, 0)
    | none => (h, 0)
  else if r.seisan = "暗号資産預入・送付" ∧ r.juju = "送付" then
    match r.suryo with
    | some q => if q > 0 then (⟨h.quantity - q, h.total_cost⟩, 0) else (h, 0)
    | none => (h, 0)
  else if r.seisan = "取引所現物 取引手数料返金" then
    match r.jpyUkewatashi with
    | some a => if a > 0 then (⟨h.quantity, h.total_cost - a⟩, 0) else (h, 0)
    | none => (h, 0)
  else if r.baibai = "買" then
    match buyQtyCostY r with
    | some (quantity, cost) =>
      if quantity > 0 then (⟨h.quantity + quantity, h.total_cost + cost⟩, 0)
      else (h, 0)
    | none => (h, 0)
  else if r.baibai = "売" ∧
      (strHas r.seisan "取引所現物取引" ∨ strHas r.seisan "販売所取引") then
    match sellQtySaleY r with
    | some (quantity, sale) =>
      if quantity > 0 ∧ h.quantity > 0 then
        let avg_cost := if h.quantity > 0 then h.total_cost / h.quantity else 0
        let cost_of_sold := avg_cost * quantity
        (⟨h.quantity - quantity, h.total_cost - cost_of_sold⟩, sale - cost_of_sold)
      else (h, 0)
    | none => (h, 0)
  else (h, 0)

/-- The replay state: the two profit dicts plus `coin_holdings` (kept as a
total function defaulting to zero holdings, matching the lazy
`if coin not in coin_holdings: … = {'quantity': 0, 'total_cost': 0}`). -/
structure YState where
  yearly : List (Option Int × ℚ)
  yearlyCoin : List (Option Int × List (String × ℚ))
  holdings : String → Holdings

def yInit : YState := ⟨[], [], fun _ => ⟨0, 0⟩⟩

/-- One iteration of the `for _, row in all_data.iterrows()` loop of
`calculate_yearly_profit` (source lines 55-178). -/
def yearlyStep (st : YState) (r : Row) : YState :=
  if r.meigara = "JPY" then st
  else
    let yr : Option Int := r.nichiji.map (fun d => d.1)
    let yearly := ensureKey st.yearly yr 0
    let yc := ensureKey st.yearlyCoin yr []
    let yc := mapAt yc yr (fun inner => ensureKey inner r.meigara 0)
    let hp := yearlyRowUpdate (st.holdings r.meigara) r
    { yearly := addAt yearly yr hp.2,
      yearlyCoin := mapAt yc yr (fun inner => addAt inner r.meigara hp.2),
      holdings := fun c => if c = r.meigara then hp.1 else st.holdings c }

/-- `all_data.sort_values('日時')`: ascending by timestamp, `NaT` last. -/
def sortRows (rows : List Row) : List Row := List.insertionSort rowLe rows

/-- The whole replay pass: sort, then fold the loop body. -/
def yearlyReplay (rows : List Row) : YState :=
  (sortRows rows).foldl yearlyStep yInit

/-- `calculate_yearly_profit`: returns `(yearly_profits, yearly_coin_profits)`. -/
def calculate_yearly_profit (rows : List Row) :
    List (Option Int × ℚ) × List (Option Int × List (String × ℚ)) :=
  ((yearlyReplay rows).yearly, (yearlyReplay rows).yearlyCoin)

/-! ## Mode A: `analyze_transactions` / `_analyze_data` (snapshot) -/

/-- The four per-coin accumulators of `_analyze_data` (source lines 191-194). -/
structure AState where
  total_quantity : ℚ
  total_principal : ℚ
  sold_quantity : ℚ
  realized_profit : ℚ
  deriving DecidableEq

/-- One iteration of the `for _, row in coin_data.iterrows()` loop of
`_analyze_data` (source lines 196-272).  In the exchange-spot (取引所現物取引)
branch the non-buy side (source `else:` at line 256) decrements
`total_quantity` unconditionally, adds the full sale amount to
`realized_profit`, and only reduces `total_principal` when the post-sell
quantity is positive (using the pre-sell quantity as the average-cost
divisor). -/
def snapRowUpdate (st : AState) (r : Row) : AState :=
  if r.seisan = "暗号資産預入・送付" ∧ r.juju = "預入" then
    match r.suryo with
    | some q =>
      if q > 0 then { st with total_quantity := st.total_quantity + q } else st
    | none => st
  else if r.seisan = "暗号資産預入・送付" ∧ r.juju = "送付" then
    match r.suryo with
    | some q =>
      if q > 0 then { st with total_quantity := st.total_quantity - q } else st
    | none => st
  else if r.seisan = "取引所現物 取引手数料返金" then
    match r.jpyUkewatashi with
    | some a =>
      if a > 0 then { st with total_principal := st.total_principal - a } else st
    | none => st
  else if strHas r.seisan "販売所取引" then
    match r.jpyUkewatashi with
    | some a =>
      if r.baibai = "買" then
        match r.yakujoSuryo with
        | some q => { st with total_quantity := st.total_quantity + q,
                              total_principal := st.total_principal + |a| }
        | none =>
          match r.suryo with
          | some q => { st with total_quantity := st.total_quantity + q,
                                total_principal := st.total_principal + |a| }
          | none => st
      else st
    | none => st
  else if strHas r.seisan "取引所現物取引" then
    let quantity := match r.yakujoSuryo with
      | some q => q
      | none => 0
    let price := match r.yakujoRate with
      | some p => p
      | none => 0
    let fee := match r.chumonTesuryo with
      | some f => f
      | none => 0
    if r.baibai = "買" then
      { st with total_quantity := st.total_quantity + quantity,
                total_principal := st.total_principal + quantity * price + fee }
    else
      let tq := st.total_quantity - quantity
      let sale := match r.jpyUkewatashi with
        | some a => a
        | none => quantity * price
      let tp :=
        if tq > 0 then
          let avg_cost :=
            if tq + quantity > 0 then st.total_principal / (tq + quantity) else 0
          st.total_principal - avg_cost * quantity
        else st.total_principal
      ⟨tq, tp, st.sold_quantity + quantity, st.realized_profit + sale⟩
  else st

/-- One per-coin entry of the `results` dict (source lines 289-296). -/
structure SnapRes where
  principal : ℚ
  quantity : ℚ
  avg_price : ℚ
  current_value : ℚ
  unrealized_profit : ℚ
  realized_profit : ℚ
  deriving DecidableEq

/-- The six well-known symbols the snapshot loop iterates over. -/
def sixCoins : List String := ["BTC", "ETH", "SOL", "XRP", "DOGE", "XLM"]

/-- The body of the per-coin loop of `_analyze_data`: `none` when
`coin_data.empty` (such a coin is omitted from the results). -/
def snapFor (data : List Row) (prices : List (String × ℚ)) (coin : String) :
    Option SnapRes :=
  let coin_data := data.filter (fun r => r.meigara = coin)
  if coin_data = [] then none
  else
    let st := coin_data.foldl snapRowUpdate ⟨0, 0, 0, 0⟩
    let current_price := ((prices.lookup coin).getD 0)
    some
      { principal := st.total_principal,
        quantity := st.total_quantity,
        avg_price :=
          if st.total_quantity > 0 then st.total_principal / st.total_quantity
          else 0,
        current_value := st.total_quantity * current_price,
        unrealized_profit :=
          st.total_quantity * current_price - st.total_principal,
        realized_profit := st.realized_profit }

/-- `_analyze_data(data, year)`: per-coin snapshot results, keyed by symbol,
in the order of `sixCoins`, empty coins omitted. -/
def analyzeData (data : List Row) (prices : List (String × ℚ)) :
    List (String × SnapRes) :=
  sixCoins.filterMap (fun coin => (snapFor data prices coin).map (fun s => (coin, s)))

/-- `data_loader.filter_data_by_year`: `none` is the `'all'` sentinel;
for an integer year only rows whose parsed timestamp has that year are
kept (`dt.year == year` is false on `NaT`). -/
def filterByYear (yearSel : Option Int) (rows : List Row) : List Row :=
  match yearSel with
  | none => rows
  | some y =>
    rows.filter (fun r =>
      match r.nichiji with
      | some d => d.1 = y
      | none => false)

/-- `analyze_transactions(year, current_prices)`: filter by year, then run
the snapshot analysis (the price map is the one just set). -/
def analyze_transactions (yearSel : Option Int) (prices : List (String × ℚ))
    (rows : List Row) : List (String × SnapRes) :=
  analyzeData (filterByYear yearSel rows) prices

/-! ## Scenario and distribution calculators -/

/-- Result of `get_distribution_data`. -/
structure DistRes where
  distribution : List (ℚ × ℚ)
  avg_price : ℚ
  current_price : ℚ
  total_quantity : ℚ
  current_value : ℚ
  deriving DecidableEq

/-- The buy lots `get_distribution_data` collects (source lines 306-318):
buy-side rows of the coin whose 約定数量 and 約定レート are both present and
positive. -/
def distLots (coin : String) (rows : List Row) : List (ℚ × ℚ) :=
  ((rows.filter (fun r => r.meigara = coin)).filter
      (fun r => r.baibai = "買")).filterMap (fun r =>
    match r.yakujoSuryo, r.yakujoRate with
    | some q, some p => if q > 0 ∧ p > 0 then some (q, p) else none
    | _, _ => none)

/-- `sum(item['quantity'] for item in distribution_data)`. -/
def distQty (coin : String) (rows : List Row) : ℚ :=
  ((distLots coin rows).map (fun l => l.1)).sum

/-- `sum(item['quantity'] * item['price'] for item in distribution_data)`. -/
def distCost (coin : String) (rows : List Row) : ℚ :=
  ((distLots coin rows).map (fun l => l.1 * l.2)).sum

/-- `get_distribution_data(coin, current_price)` over the full record set:
collects every buy-side (約定数量, 約定レート) lot with both fields present
and positive, and the aggregate quantity / weighted-average price. -/
def get_distribution_data (coin : String) (current_price : ℚ)
    (rows : List Row) : DistRes :=
  { distribution := distLots coin rows,
    avg_price :=
      if distQty coin rows > 0 then distCost coin rows / distQty coin rows
      else 0,
    current_price := current_price,
    total_quantity := distQty coin rows,
    current_value := distQty coin rows * current_price }

/-- One of the `current` / `new` / `change` blocks of a scenario result. -/
structure ScenBlock where
  quantity : ℚ
  avg_price : ℚ
  total_cost : ℚ
  value : ℚ
  deriving DecidableEq

/-- Result of `calculate_scenario`. -/
structure ScenRes where
  current : ScenBlock
  new : ScenBlock
  change : ScenBlock
  deriving DecidableEq

/-- `calculate_scenario(coin, current_price, additional_quantity)`. -/
def calculate_scenario (coin : String) (current_price additional_quantity : ℚ)
    (rows : List Row) : ScenRes :=
  let d := get_distribution_data coin current_price rows
  let current_quantity := d.total_quantity
  let current_avg_price := d.avg_price
  let current_total_cost := current_quantity * current_avg_price
  let new_quantity := current_quantity + additional_quantity
  let new_total_cost := current_total_cost + additional_quantity * current_price
  let new_avg_price :=
    if new_quantity > 0 then new_total_cost / new_quantity else 0
  let new_value := new_quantity * current_price
  { current := ⟨current_quantity, current_avg_price, current_total_cost,
      current_quantity * current_price⟩,
    new := ⟨new_quantity, new_avg_price, new_total_cost, new_value⟩,
    change := ⟨additional_quantity, new_avg_price - current_avg_price,
      new_total_cost - current_total_cost,
      new_value - current_quantity * current_price⟩ }

/-- Result of `calculate_scenario_by_amount`. -/
structure ScenAmtRes where
  current : ScenBlock
  new : ScenBlock
  change : ScenBlock
  additional_amount : ℚ
  deriving DecidableEq

/-- `calculate_scenario_by_amount(coin, current_price, additional_amount)`:
the additional quantity is `additional_amount / current_price`, 0 when the
price is not positive. -/
def calculate_scenario_by_amount (coin : String)
    (current_price additional_amount : ℚ) (rows : List Row) : ScenAmtRes :=
  let d := get_distribution_data coin current_price rows
  let current_quantity := d.total_quantity
  let current_avg_price := d.avg_price
  let current_total_cost := current_quantity * current_avg_price
  let additional_quantity :=
    if current_price > 0 then additional_amount / current_price else 0
  let new_quantity := current_quantity + additional_quantity
  let new_total_cost := current_total_cost + additional_amount
  let new_avg_price :=
    if new_quantity > 0 then new_total_cost / new_quantity else 0
  let new_value := new_quantity * current_price
  { current := ⟨current_quantity, current_avg_price, current_total_cost,
      current_quantity * current_price⟩,
    new := ⟨new_quantity, new_avg_price, new_total_cost, new_value⟩,
    change := ⟨additional_quantity, new_avg_price - current_avg_price,
      additional_amount,
      new_value - current_quantity * current_price⟩,
    additional_amount := additional_amount }

/-- The weighted-average acquisition price the replay ledger holds for a
coin after applying all events: total cost basis over held quantity
(0 when the quantity is not positive, the guard style of the source). -/
def ledgerAvg (rows : List Row) (coin : String) : ℚ :=
  let h := (yearlyReplay rows).holdings coin
  if h.quantity > 0 then h.total_cost / h.quantity else 0

/-! ## Concrete records used as witnesses and counterexamples -/

/-- Exchange-spot buy: 1 BTC at rate 100, no fee, timestamp in 2021. -/
def rBuy : Row :=
  { meigara := "BTC", nichiji := some (2021, 1), seisan := "取引所現物取引",
    juju := "", baibai := "買", suryo := none, yakujoSuryo := some 1,
    yakujoRate := some 100, jpyUkewatashi := none, chumonTesuryo := none }

/-- Exchange-spot buy with an order fee: 1 BTC at rate 100, fee 10. -/
def rBuyFee : Row :=
  { rBuy with nichiji := some (2021, 0), chumonTesuryo := some 10 }

/-- Exchange-spot sell: 1 BTC, settlement amount 150, no fee. -/
def rSell : Row :=
  { meigara := "BTC", nichiji := some (2021, 2), seisan := "取引所現物取引",
    juju := "", baibai := "売", suryo := none, yakujoSuryo := some 1,
    yakujoRate := none, jpyUkewatashi := some 150, chumonTesuryo := none }

/-- The same sell with an unparsable timestamp (`NaT`). -/
def rSellNaT : Row := { rSell with nichiji := none }

/-- Exchange-spot sell of 2 units with settlement amount 100. -/
def rSell2 : Row :=
  { rSell with yakujoSuryo := some 2, jpyUkewatashi := some 100 }

/-- Exchange-spot sell: 1 unit, settlement amount 150 AND order fee 10. -/
def rSellFee : Row := { rSell with chumonTesuryo := some 10 }

/-- Staking deposit of 3 units (精算区分 staking transfer, 授受区分 deposit). -/
def rStake : Row :=
  { meigara := "BTC", nichiji := some (2021, 3),
    seisan := "暗号資産預入・送付", juju := "預入", baibai := "",
    suryo := some 3, yakujoSuryo := none, yakujoRate := none,
    jpyUkewatashi := none, chumonTesuryo := none }

/-! ## Claims -/

/-- C1: the claim says the snapshot's `realized_profit` is the sum of
proceeds minus cost-of-sold over the window's sells, proceeds never being
counted without subtracting cost-of-sold.  The code (line 266 of
`analyzer.py`, `realized_profit += sale_amount`) adds the **gross**
proceeds; only `total_principal` is reduced by cost-of-sold.  On the input
[buy 1 BTC at 100, sell 1 BTC for 150] the reported realized profit is 150
(the claim demands 150 − 100 = 50), while the principal keeps the whole
100 cost basis (quantity 0, so the principal-adjustment guard also skips).
This evaluation exhibits the divergence. -/
theorem C1_snapshot_profit_is_gross_proceeds :
    List.lookup "BTC" (analyzeData [rBuy, rSell] []) =
      some ⟨100, 0, 0, 0, -100, 150⟩ := by
  norm_num +decide [analyzeData, sixCoins, snapFor, snapRowUpdate, rBuy, rSell,
    strHas, listHas, listPrefixOf, List.lookup, List.filter, List.foldl]

/-- C2, counterexample: the claim says both modes apply identical per-event
update logic to the same per-coin state.  Applying the single exchange-spot
sell `rSell` (1 unit, settlement 150) to the empty state (0 held, 0 cost),
the replay is a no-op while the snapshot drives the quantity to −1 and
books 150 of profit: the resulting quantities (and profits) differ. -/
theorem C2_counterexample_single_sell_diverges :
    ¬ ((yearlyRowUpdate ⟨0, 0⟩ rSell).1.quantity =
          (snapRowUpdate ⟨0, 0, 0, 0⟩ rSell).total_quantity ∧
        (yearlyRowUpdate ⟨0, 0⟩ rSell).1.total_cost =
          (snapRowUpdate ⟨0, 0, 0, 0⟩ rSell).total_principal ∧
        (yearlyRowUpdate ⟨0, 0⟩ rSell).2 =
          (snapRowUpdate ⟨0, 0, 0, 0⟩ rSell).realized_profit) := by
  have h1 : yearlyRowUpdate ⟨0, 0⟩ rSell = (⟨0, 0⟩, 0) := by
    norm_num +decide [yearlyRowUpdate, sellQtySaleY, rSell, strHas, listHas,
      listPrefixOf]
  have h2 : snapRowUpdate ⟨0, 0, 0, 0⟩ rSell = ⟨-1, 0, 1, 150⟩ := by
    norm_num +decide [snapRowUpdate, rSell, strHas, listHas, listPrefixOf]
  rw [h1, h2]
  intro hc
  exact absurd hc.1 (by norm_num)

/-- C2, amended: the two modes apply identical per-event update logic to
the staking-deposit, staking-withdrawal and fee-rebate events (same
resulting quantity, same cost basis, zero per-event realized profit in
both); their buy and sell handling differs (see the counterexample: the
replay guards sells on positive held quantity and books proceeds minus
cost-of-sold, the snapshot decrements unconditionally and books gross
proceeds; exchange buys also differ when the executed quantity is absent
or non-positive, where only the snapshot still adds the fee to the
principal). -/
theorem C2_amended_staking_and_rebate_agree (h : Holdings) (s : AState)
    (r : Row)
    (hcase : (r.seisan = "暗号資産預入・送付" ∧
        (r.juju = "預入" ∨ r.juju = "送付")) ∨
      r.seisan = "取引所現物 取引手数料返金")
    (hq : s.total_quantity = h.quantity)
    (hc : s.total_principal = h.total_cost) :
    (snapRowUpdate s r).total_quantity = (yearlyRowUpdate h r).1.quantity ∧
    (snapRowUpdate s r).total_principal = (yearlyRowUpdate h r).1.total_cost ∧
    (yearlyRowUpdate h r).2 = 0 ∧
    (snapRowUpdate s r).realized_profit = s.realized_profit := by
  rcases hcase with ⟨hs, hj | hj⟩ | hs
  · cases hsu : r.suryo with
    | none => simp +decide [yearlyRowUpdate, snapRowUpdate, hs, hj, hsu, hq, hc]
    | some q =>
      by_cases h0 : q > 0 <;>
        simp +decide [yearlyRowUpdate, snapRowUpdate, hs, hj, hsu, h0, hq, hc]
  · cases hsu : r.suryo with
    | none => simp +decide [yearlyRowUpdate, snapRowUpdate, hs, hj, hsu, hq, hc]
    | some q =>
      by_cases h0 : q > 0 <;>
        simp +decide [yearlyRowUpdate, snapRowUpdate, hs, hj, hsu, h0, hq, hc]
  · cases hju : r.jpyUkewatashi with
    | none => simp +decide [yearlyRowUpdate, snapRowUpdate, hs, hju, hq, hc]
    | some a =>
      by_cases h0 : a > 0 <;>
        simp +decide [yearlyRowUpdate, snapRowUpdate, hs, hju, h0, hq, hc]

/-- Witness for the amended C2, at the staking deposit `rStake`. -/
theorem C2_amended_staking_witness :
    (snapRowUpdate ⟨1, 2, 0, 0⟩ rStake).total_quantity =
        (yearlyRowUpdate ⟨1, 2⟩ rStake).1.quantity ∧
      (snapRowUpdate ⟨1, 2, 0, 0⟩ rStake).total_principal =
        (yearlyRowUpdate ⟨1, 2⟩ rStake).1.total_cost ∧
      (yearlyRowUpdate ⟨1, 2⟩ rStake).2 = 0 ∧
      (snapRowUpdate ⟨1, 2, 0, 0⟩ rStake).realized_profit = 0 :=
  C2_amended_staking_and_rebate_agree ⟨1, 2⟩ ⟨1, 2, 0, 0⟩ rStake
    (Or.inl ⟨rfl, Or.inl rfl⟩) rfl rfl

/-- C3, counterexample: the claim says selling more than the held quantity
never drives `held_quantity` or `total_cost_basis` negative (the excess
being ignored).  In the replay, selling 2 units (`rSell2`, settlement 100)
against holdings of 1 unit at cost 100 yields holdings of −1 and cost
−100: both go negative. -/
theorem C3_counterexample_sell_drives_negative :
    (yearlyRowUpdate ⟨1, 100⟩ rSell2).1.quantity < 0 ∧
    (yearlyRowUpdate ⟨1, 100⟩ rSell2).1.total_cost < 0 := by
  have h : yearlyRowUpdate ⟨1, 100⟩ rSell2 = (⟨-1, -100⟩, -100) := by
    norm_num +decide [yearlyRowUpdate, sellQtySaleY, rSell2, rSell, strHas,
      listHas, listPrefixOf]
  rw [h]
  constructor <;> norm_num

/-- C3, amended: in the replay a Sell encountered with `held_quantity ≤ 0`
is a complete no-op (state unchanged, no profit counted); but a sell of
more than a positive `held_quantity` subtracts the full quantity and full
cost-of-sold, driving both `held_quantity` and `total_cost_basis`
negative (the excess is NOT ignored); and in the snapshot a sell always
decrements the quantity and books its proceeds, even from zero holdings. -/
theorem C3_amended_sell_guard :
    (∀ (h : Holdings) (r : Row), r.baibai = "売" →
        r.seisan ≠ "暗号資産預入・送付" →
        r.seisan ≠ "取引所現物 取引手数料返金" →
        h.quantity ≤ 0 → yearlyRowUpdate h r = (h, 0)) ∧
    yearlyRowUpdate ⟨1, 100⟩ rSell2 = (⟨-1, -100⟩, -100) ∧
    snapRowUpdate ⟨0, 0, 0, 0⟩ rSell = ⟨-1, 0, 1, 150⟩ := by
  refine ⟨?_, ?_, ?_⟩
  · intro h r hb hs1 hs2 hq
    unfold yearlyRowUpdate
    rw [if_neg (fun hh => hs1 hh.1), if_neg (fun hh => hs1 hh.1), if_neg hs2,
      if_neg (by rw [hb]; decide)]
    split
    · split
      · rw [if_neg (fun hg => absurd hg.2 (not_lt.mpr hq))]
      · rfl
    · rfl
  · norm_num +decide [yearlyRowUpdate, sellQtySaleY, rSell2, rSell, strHas,
      listHas, listPrefixOf]
  · norm_num +decide [snapRowUpdate, rSell, strHas, listHas, listPrefixOf]

/-- Witness for the amended C3: the no-op conjunct applied to a sell
against zero holdings. -/
theorem C3_amended_witness :
    yearlyRowUpdate ⟨0, 5⟩ rSell = (⟨0, 5⟩, 0) :=
  C3_amended_sell_guard.1 ⟨0, 5⟩ rSell rfl (by decide) (by decide) le_rfl

/-- C4, counterexample: the claim says the order fee is not subtracted
from the proceeds when the settlement amount is present.  In the replay's
exchange-spot sell path (source lines 158-159) the fee IS subtracted even
then: selling 1 unit with settlement 150 and fee 10 (`rSellFee`) against
holdings ⟨2, 100⟩ books profit 90 = (150 − 10) − 50, not the
150 − 50 = 100 the claim demands. -/
theorem C4_counterexample_fee_subtracted_in_replay :
    (yearlyRowUpdate ⟨2, 100⟩ rSellFee).2 ≠ 150 - 100 / 2 * 1 := by
  have h : yearlyRowUpdate ⟨2, 100⟩ rSellFee = (⟨1, 50⟩, 90) := by
    norm_num +decide [yearlyRowUpdate, sellQtySaleY, rSellFee, rSell, strHas,
      listHas, listPrefixOf]
  rw [h]
  norm_num

/-- C4, amended: in the SNAPSHOT exchange-spot sell path the proceeds are
the settlement amount when present, else quantity × rate, and the order
fee is never subtracted; in the REPLAY exchange-spot sell path the order
fee, when present, is subtracted from the proceeds even when the
settlement amount is present. -/
theorem C4_amended_exchange_sell_proceeds :
    (∀ (s : AState) (r : Row),
        strHas r.seisan "取引所現物取引" = true →
        strHas r.seisan "販売所取引" = false →
        r.seisan ≠ "暗号資産預入・送付" →
        r.seisan ≠ "取引所現物 取引手数料返金" →
        r.baibai ≠ "買" →
        (snapRowUpdate s r).realized_profit = s.realized_profit +
          (match r.jpyUkewatashi with
           | some a => a
           | none =>
             (match r.yakujoSuryo with | some q => q | none => 0) *
               (match r.yakujoRate with | some p => p | none => 0))) ∧
    (∀ (h : Holdings) (r : Row) (a f q : ℚ),
        strHas r.seisan "取引所現物取引" = true →
        strHas r.seisan "販売所取引" = false →
        r.seisan ≠ "暗号資産預入・送付" →
        r.seisan ≠ "取引所現物 取引手数料返金" →
        r.baibai = "売" →
        r.jpyUkewatashi = some a → r.chumonTesuryo = some f →
        r.yakujoSuryo = some q → 0 < q → 0 < h.quantity →
        (yearlyRowUpdate h r).2 =
          (a - f) - h.total_cost / h.quantity * q) := by
  constructor
  · intro s r h1 h2 hs1 hs2 hb
    unfold snapRowUpdate
    rw [if_neg (fun hh => hs1 hh.1), if_neg (fun hh => hs1 hh.1), if_neg hs2,
      h2, if_neg (by decide), h1, if_pos rfl, if_neg hb]
  · intro h r a f q h1 h2 hs1 hs2 hb hja hjf hjq hq0 hh0
    unfold yearlyRowUpdate
    rw [if_neg (fun hh => hs1 hh.1), if_neg (fun hh => hs1 hh.1), if_neg hs2,
      if_neg (by rw [hb]; decide), if_pos ⟨hb, Or.inl h1⟩]
    unfold sellQtySaleY
    rw [h2, if_neg (by decide), h1, if_pos rfl, hjq, hja, hjf]
    simp [hq0, hh0]

/-- Witness for the amended C4: the snapshot books the full settlement 150
of `rSell`; the replay books (150 − 10) − 50 = 90 for `rSellFee` against
holdings ⟨2, 100⟩. -/
theorem C4_amended_witness :
    (snapRowUpdate ⟨0, 0, 0, 0⟩ rSell).realized_profit = 150 ∧
    (yearlyRowUpdate ⟨2, 100⟩ rSellFee).2 = 90 := by
  constructor
  · have h := C4_amended_exchange_sell_proceeds.1 ⟨0, 0, 0, 0⟩ rSell
      (by decide) (by decide) (by decide) (by decide) (by decide)
    simpa [rSell] using h
  · have h := C4_amended_exchange_sell_proceeds.2 ⟨2, 100⟩ rSellFee 150 10 1
      (by decide) (by decide) (by decide) (by decide) rfl rfl rfl rfl
      (by norm_num) (by norm_num)
    rw [h]
    norm_num

/-- C5, counterexample: the claim says every record with an unparsable
timestamp is excluded from the replay (no year's profit figure, no ledger
update).  On [buy in 2021, sell with `NaT` timestamp] the `NaT` sell is
sorted last but still applied: the returned `yearly_profits` carries a
profit of 50 under the non-year (`NaT`) key, and the ledger's BTC
holdings differ from those of the replay over the parsable records
alone. -/
theorem C5_counterexample_nat_rows_processed :
    (calculate_yearly_profit [rBuy, rSellNaT]).1.lookup none = some 50 ∧
    (yearlyReplay [rBuy, rSellNaT]).holdings "BTC" ≠
      (yearlyReplay
          (([rBuy, rSellNaT]).filter (fun r => r.nichiji.isSome))).holdings
        "BTC" := by
  constructor
  · norm_num +decide [calculate_yearly_profit, yearlyReplay, sortRows,
      List.insertionSort, List.orderedInsert, rowLe, keyLe, yearlyStep, yInit,
      ensureKey, mapAt, addAt, yearlyRowUpdate, buyQtyCostY, sellQtySaleY,
      strHas, listHas, listPrefixOf, rBuy, rSell, rSellNaT, List.lookup,
      List.foldl, List.any]
  · have h1 : (yearlyReplay [rBuy, rSellNaT]).holdings "BTC" = ⟨0, 0⟩ := by
      norm_num +decide [yearlyReplay, sortRows, List.insertionSort,
        List.orderedInsert, rowLe, keyLe, yearlyStep, yInit, ensureKey, mapAt,
        addAt, yearlyRowUpdate, buyQtyCostY, sellQtySaleY, strHas, listHas,
        listPrefixOf, rBuy, rSell, rSellNaT, List.foldl, List.any]
    have h2 : (yearlyReplay
        (([rBuy, rSellNaT]).filter (fun r => r.nichiji.isSome))).holdings
          "BTC" = ⟨1, 100⟩ := by
      norm_num +decide [yearlyReplay, sortRows, List.insertionSort,
        List.orderedInsert, rowLe, keyLe, yearlyStep, yInit, ensureKey, mapAt,
        addAt, yearlyRowUpdate, buyQtyCostY, sellQtySaleY, strHas, listHas,
        listPrefixOf, rBuy, rSell, rSellNaT, List.foldl, List.filter, List.any]
    rw [h1, h2]
    intro hc
    exact absurd (congrArg Holdings.quantity hc) (by norm_num)

/-- C5, amended: the replay does process the entire record set sorted
ascending by timestamp before applying any event (`sortRows` is a
permutation of the input, pairwise ordered by `rowLe`, with unparsable
timestamps placed last; tie order is unspecified by the source, which
uses the pandas default sort kind — the embedding fixes ties to input
order); but records with unparsable timestamps are NOT excluded: they are
applied to the ledger after all parsable records, and a sell profit among
them is recorded under the non-year (`NaT`) key of the returned mapping,
as the concrete replay of [buy in 2021, `NaT` sell] shows. -/
theorem C5_amended_sorted_but_nat_included :
    (∀ rows : List Row,
        (sortRows rows).Perm rows ∧ (sortRows rows).Pairwise rowLe) ∧
    (calculate_yearly_profit [rBuy, rSellNaT]).1 =
      [(some 2021, 0), (none, 50)] := by
  refine ⟨fun rows => ⟨List.perm_insertionSort rowLe rows,
    List.sorted_insertionSort rowLe rows⟩, ?_⟩
  norm_num +decide [calculate_yearly_profit, yearlyReplay, sortRows,
    List.insertionSort, List.orderedInsert, rowLe, keyLe, yearlyStep, yInit,
    ensureKey, mapAt, addAt, yearlyRowUpdate, buyQtyCostY, sellQtySaleY,
    strHas, listHas, listPrefixOf, rBuy, rSell, rSellNaT, List.foldl, List.any]

/-- C6: a staking-deposit event (staking-transfer settlement category,
transfer direction Deposit) with a present, positive quantity leaves the
cost basis unchanged and increases the held quantity by exactly that
quantity — in the replay and in the snapshot alike. -/
theorem C6_staking_deposit_zero_cost (h : Holdings) (s : AState) (r : Row)
    (q : ℚ) (hs : r.seisan = "暗号資産預入・送付") (hj : r.juju = "預入")
    (hq : r.suryo = some q) (hpos : 0 < q) :
    yearlyRowUpdate h r = (⟨h.quantity + q, h.total_cost⟩, 0) ∧
    snapRowUpdate s r = { s with total_quantity := s.total_quantity + q } := by
  constructor <;>
    simp +decide [yearlyRowUpdate, snapRowUpdate, hs, hj, hq, hpos]

/-- Witness for C6, at the staking deposit `rStake` (quantity 3). -/
theorem C6_staking_deposit_witness :
    yearlyRowUpdate ⟨1, 2⟩ rStake = (⟨1 + 3, 2⟩, 0) ∧
    snapRowUpdate ⟨1, 2, 0, 0⟩ rStake = ⟨1 + 3, 2, 0, 0⟩ :=
  C6_staking_deposit_zero_cost ⟨1, 2⟩ ⟨1, 2, 0, 0⟩ rStake 3 rfl rfl rfl
    (by norm_num)

/-- C8: a scenario with zero additional quantity changes nothing —
`calculate_scenario(coin, p, 0)` returns a `new` block equal to its
`current` block in every field (quantity, average price, total cost,
value), for every coin, price and record set. -/
theorem C8_scenario_zero_additional (rows : List Row) (coin : String)
    (p : ℚ) :
    (calculate_scenario coin p 0 rows).new =
      (calculate_scenario coin p 0 rows).current := by
  simp only [calculate_scenario, get_distribution_data, add_zero, zero_mul]
  by_cases hq : distQty coin rows > 0
  · have hne : distQty coin rows ≠ 0 := ne_of_gt hq
    simp [hq, hne, mul_div_cancel_left₀]
  · simp [hq]

/-- C9: every guarded division of the analyzer yields 0 on a zero or
non-positive denominator: the distribution's average price is 0 when its
total quantity is not positive; `calculate_scenario_by_amount` computes
an additional quantity of 0 (and leaves the quantity unchanged) when the
current price is not positive; a snapshot entry's `avg_price` is 0 when
its quantity is not positive; and the replay books no profit from any row
when the coin's held quantity is not positive. -/
theorem C9_division_guards :
    (∀ (coin : String) (p : ℚ) (rows : List Row),
        (get_distribution_data coin p rows).total_quantity ≤ 0 →
        (get_distribution_data coin p rows).avg_price = 0) ∧
    (∀ (coin : String) (p amt : ℚ) (rows : List Row), p ≤ 0 →
        (calculate_scenario_by_amount coin p amt rows).change.quantity = 0 ∧
        (calculate_scenario_by_amount coin p amt rows).new.quantity =
          (calculate_scenario_by_amount coin p amt rows).current.quantity) ∧
    (∀ (data : List Row) (prices : List (String × ℚ)) (e : String × SnapRes),
        e ∈ analyzeData data prices → e.2.quantity ≤ 0 →
        e.2.avg_price = 0) ∧
    (∀ (h : Holdings) (r : Row), h.quantity ≤ 0 →
        (yearlyRowUpdate h r).2 = 0) := by
  refine ⟨?_, ?_, ?_, ?_⟩
  · intro coin p rows hle
    simp only [get_distribution_data] at hle ⊢
    rw [if_neg (not_lt.mpr hle)]
  · intro coin p amt rows hle
    simp only [calculate_scenario_by_amount, get_distribution_data]
    rw [if_neg (not_lt.mpr hle)]
    exact ⟨rfl, by simp⟩
  · intro data prices e he hle
    simp only [analyzeData, List.mem_filterMap, Option.map_eq_some'] at he
    obtain ⟨coin, -, s, hs, rfl⟩ := he
    simp only [snapFor] at hs
    split at hs
    · exact absurd hs (by simp)
    · obtain rfl := (Option.some_inj.mp hs).symm
      simp only at hle ⊢
      rw [if_neg (not_lt.mpr hle)]
  · intro h r hle
    unfold yearlyRowUpdate
    split
    · split <;> (try split) <;> rfl
    · split
      · split <;> (try split) <;> rfl
      · split
        · split <;> (try split) <;> rfl
        · split
          · split
            · split <;> rfl
            · rfl
          · split
            · split
              · split
                · rename_i hg
                  exact absurd hg.2 (not_lt.mpr hle)
                · rfl
              · rfl
            · rfl

/-- Witness for C9: the guards evaluated at concrete inputs — empty
record set (total quantity 0), zero current price, and a sell row against
non-positive holdings. -/
theorem C9_division_guards_witness :
    (get_distribution_data "BTC" 5 []).avg_price = 0 ∧
    (calculate_scenario_by_amount "BTC" 0 7 []).change.quantity = 0 ∧
    (yearlyRowUpdate ⟨0, 3⟩ rSell).2 = 0 := by
  refine ⟨C9_division_guards.1 "BTC" 5 [] ?_,
    (C9_division_guards.2.1 "BTC" 0 7 [] ?_).1,
    C9_division_guards.2.2.2 ⟨0, 3⟩ rSell ?_⟩
  · norm_num [get_distribution_data, distQty, distLots]
  · norm_num
  · norm_num

/-- Key/membership helper for C10: a lookup into the keyed `filterMap`
the snapshot builds succeeds exactly for listed coins whose body
produced a value. -/
lemma lookup_keyed_filterMap (coins : List String)
    (f : String → Option SnapRes) (coin : String) :
    (List.lookup coin
        (coins.filterMap (fun c => (f c).map (fun s => (c, s))))).isSome =
      true ↔ coin ∈ coins ∧ (f coin).isSome = true := by
  induction coins with
  | nil => simp
  | cons c cs ih =>
    cases hfc : f c with
    | none =>
      simp only [List.filterMap_cons, hfc, Option.map_none', ih,
        List.mem_cons]
      constructor
      · rintro ⟨hm, hsome⟩
        exact ⟨Or.inr hm, hsome⟩
      · rintro ⟨hm | hm, hsome⟩
        · subst hm
          rw [hfc] at hsome
          exact absurd hsome (by simp)
        · exact ⟨hm, hsome⟩
    | some s =>
      simp only [List.filterMap_cons, hfc, Option.map_some', List.lookup,
        List.mem_cons]
      by_cases hcc : coin = c
      · subst hcc
        simp [hfc]
      · have : (coin == c) = false := beq_false_of_ne hcc
        simp [this, ih, hcc]

/-- C10: for every year selection and price map, the mapping returned by
`analyze_transactions` has an entry for a symbol exactly when it is one
of the six well-known symbols AND it has at least one record in the
filtered window — any other symbol never appears, and one of the six with
no records is omitted entirely rather than reported with zeros. -/
theorem C10_result_keys (yearSel : Option Int)
    (prices : List (String × ℚ)) (rows : List Row) (coin : String) :
    (List.lookup coin (analyze_transactions yearSel prices rows)).isSome =
      true ↔
    coin ∈ sixCoins ∧
      (filterByYear yearSel rows).filter (fun r => r.meigara = coin) ≠
        [] := by
  unfold analyze_transactions analyzeData
  rw [lookup_keyed_filterMap]
  constructor
  · rintro ⟨hm, hsome⟩
    refine ⟨hm, ?_⟩
    intro hempty
    rw [snapFor, if_pos hempty] at hsome
    exact absurd hsome (by simp)
  · rintro ⟨hm, hne⟩
    refine ⟨hm, ?_⟩
    rw [snapFor, if_neg hne]
    simp

/-- C7, counterexample: the claim says `get_distribution_data`'s
`avg_price` always equals the ledger's cost-basis average.  One
exchange-spot buy of 1 unit at rate 100 with order fee 10 (`rBuyFee`)
already separates them: the distribution averages the lot rate (100),
the ledger includes the fee in the cost basis (110). -/
theorem C7_counterexample_fee_divergence :
    (get_distribution_data "BTC" 0 [rBuyFee]).avg_price ≠
      ledgerAvg [rBuyFee] "BTC" := by
  have h1 : (get_distribution_data "BTC" 0 [rBuyFee]).avg_price = 100 := by
    norm_num +decide [get_distribution_data, distQty, distCost, distLots,
      rBuyFee, rBuy, List.filter, List.filterMap]
  have h2 : ledgerAvg [rBuyFee] "BTC" = 110 := by
    norm_num +decide [ledgerAvg, yearlyReplay, sortRows, List.insertionSort,
      List.orderedInsert, rowLe, keyLe, yearlyStep, yInit, ensureKey, mapAt,
      addAt, yearlyRowUpdate, buyQtyCostY, sellQtySaleY, strHas, listHas,
      listPrefixOf, rBuyFee, rBuy, List.foldl, List.any]
  rw [h1, h2]
  norm_num

/-- A fee-free exchange-spot buy with executed quantity and rate both
present and positive: the only record shape on which the distribution's
average and the ledger's average can be expected to coincide. -/
def niceBuy (r : Row) : Prop :=
  r.baibai = "買" ∧ r.seisan = "取引所現物取引" ∧ r.chumonTesuryo = none ∧
  (∃ q, r.yakujoSuryo = some q ∧ 0 < q) ∧
  (∃ p, r.yakujoRate = some p ∧ 0 < p)

/-- On a `niceBuy` row the replay update adds the executed quantity and
quantity × rate, with zero realized profit. -/
lemma yearlyRowUpdate_niceBuy (h : Holdings) (r : Row) (hr : niceBuy r) :
    yearlyRowUpdate h r =
      (⟨h.quantity + r.yakujoSuryo.getD 0,
        h.total_cost + r.yakujoSuryo.getD 0 * r.yakujoRate.getD 0⟩, 0) := by
  obtain ⟨hb, hs, hf, ⟨q, hq, hq0⟩, ⟨p, hp, hp0⟩⟩ := hr
  simp +decide [yearlyRowUpdate, buyQtyCostY, strHas, listHas, listPrefixOf,
    hb, hs, hf, hq, hp, hq0]

/-- Folding the replay update over a list of `niceBuy` rows sums the
quantities and the quantity × rate costs. -/
lemma foldl_yearlyRowUpdate_nice :
    ∀ (F : List Row) (a b : ℚ), (∀ r ∈ F, niceBuy r) →
      F.foldl (fun h r => (yearlyRowUpdate h r).1) ⟨a, b⟩ =
        ⟨a + (F.map (fun r => r.yakujoSuryo.getD 0)).sum,
          b + (F.map
            (fun r => r.yakujoSuryo.getD 0 * r.yakujoRate.getD 0)).sum⟩ := by
  intro F
  induction F with
  | nil => intro a b _; simp
  | cons r F ih =>
    intro a b hall
    simp only [List.foldl_cons, List.map_cons, List.sum_cons]
    rw [yearlyRowUpdate_niceBuy _ _ (hall r (by simp))]
    rw [ih _ _ (fun x hx => hall x (by simp [hx]))]
    simp only [Holdings.mk.injEq]
    constructor <;> ring

/-- The replay's holdings for a (non-JPY) coin depend only on the rows of
that coin, through the per-row update. -/
lemma holdings_foldl (coin : String) (hcoin : coin ≠ "JPY") :
    ∀ (rs : List Row) (st : YState),
      ((rs.foldl yearlyStep st).holdings) coin =
        (rs.filter (fun r => r.meigara = coin)).foldl
          (fun h r => (yearlyRowUpdate h r).1) (st.holdings coin) := by
  intro rs
  induction rs with
  | nil => intro st; rfl
  | cons r rs ih =>
    intro st
    simp only [List.foldl_cons, List.filter_cons]
    by_cases hJ : r.meigara = "JPY"
    · have hne : ¬(r.meigara = coin) := by
        rw [hJ]; exact fun hc => hcoin hc.symm
      rw [show yearlyStep st r = st from by rw [yearlyStep, if_pos hJ]]
      rw [if_neg (by simpa using hne)]
      exact ih st
    · have hstep : (yearlyStep st r).holdings coin =
          if coin = r.meigara
          then (yearlyRowUpdate (st.holdings r.meigara) r).1
          else st.holdings coin := by
        rw [yearlyStep, if_neg hJ]
      by_cases hrc : r.meigara = coin
      · rw [if_pos (by simpa using hrc), List.foldl_cons,
          ih (yearlyStep st r), hstep, if_pos hrc.symm, hrc]
      · rw [if_neg (by simpa using hrc), ih (yearlyStep st r), hstep,
          if_neg (fun hc => hrc hc.symm)]

/-- On `niceBuy` rows the distribution's lot collection is total: each
row yields exactly its (約定数量, 約定レート) pair. -/
lemma filterMap_lots_nice :
    ∀ F : List Row, (∀ r ∈ F, niceBuy r) →
      F.filterMap (fun r =>
          match r.yakujoSuryo, r.yakujoRate with
          | some q, some p => if q > 0 ∧ p > 0 then some (q, p) else none
          | _, _ => none) =
        F.map (fun r => (r.yakujoSuryo.getD 0, r.yakujoRate.getD 0)) := by
  intro F
  induction F with
  | nil => intro _; rfl
  | cons r F ih =>
    intro hall
    obtain ⟨-, -, -, ⟨q, hq, hq0⟩, ⟨p, hp, hp0⟩⟩ := hall r (by simp)
    have hcond : q > 0 ∧ p > 0 := ⟨hq0, hp0⟩
    simp only [List.filterMap_cons, List.map_cons, hq, hp, if_pos hcond]
    rw [ih (fun x hx => hall x (by simp [hx]))]
    simp

/-- C7, amended: the distribution's `avg_price` is the fee-free weighted
average of the coin's executed buy lots; it equals the ledger's average
when every record of the coin is a fee-free exchange-spot buy with
executed quantity and rate present and positive (`niceBuy`).  In general
the two differ — the distribution ignores order fees (see the
counterexample), marketplace settlement amounts, staking flows and
sells. -/
theorem C7_amended_distribution_vs_ledger (rows : List Row) (coin : String)
    (p : ℚ) (hcoin : coin ≠ "JPY")
    (hnice : ∀ r ∈ rows, r.meigara = coin → niceBuy r) :
    (get_distribution_data coin p rows).avg_price = ledgerAvg rows coin := by
  have hFnice : ∀ r ∈ rows.filter (fun r => r.meigara = coin), niceBuy r := by
    intro r hr
    rw [List.mem_filter] at hr
    exact hnice r hr.1 (of_decide_eq_true hr.2)
  have hGnice :
      ∀ r ∈ (sortRows rows).filter (fun r => r.meigara = coin), niceBuy r := by
    intro r hr
    rw [List.mem_filter] at hr
    exact hnice r ((List.perm_insertionSort rowLe rows).mem_iff.mp hr.1)
      (of_decide_eq_true hr.2)
  -- the distribution side: lots are exactly the coin's rows
  have hbuy : (rows.filter (fun r => r.meigara = coin)).filter
      (fun r => r.baibai = "買") = rows.filter (fun r => r.meigara = coin) := by
    rw [List.filter_eq_self]
    intro r hr
    exact decide_eq_true (hFnice r hr).1
  have hlots : distLots coin rows =
      (rows.filter (fun r => r.meigara = coin)).map
        (fun r => (r.yakujoSuryo.getD 0, r.yakujoRate.getD 0)) := by
    rw [distLots, hbuy, filterMap_lots_nice _ hFnice]
  -- the ledger side: fold the per-row update over the coin's sorted rows
  have hledger : (yearlyReplay rows).holdings coin =
      ⟨0 + (((sortRows rows).filter (fun r => r.meigara = coin)).map
          (fun r => r.yakujoSuryo.getD 0)).sum,
        0 + (((sortRows rows).filter (fun r => r.meigara = coin)).map
          (fun r => r.yakujoSuryo.getD 0 * r.yakujoRate.getD 0)).sum⟩ := by
    rw [yearlyReplay, holdings_foldl coin hcoin]
    exact foldl_yearlyRowUpdate_nice _ 0 0 hGnice
  -- the two sides sum over permuted lists
  have hperm : ((sortRows rows).filter (fun r => r.meigara = coin)).Perm
      (rows.filter (fun r => r.meigara = coin)) :=
    (List.perm_insertionSort rowLe rows).filter _
  have hsum1 : (((sortRows rows).filter (fun r => r.meigara = coin)).map
      (fun r => r.yakujoSuryo.getD 0)).sum =
      ((rows.filter (fun r => r.meigara = coin)).map
        (fun r => r.yakujoSuryo.getD 0)).sum :=
    (hperm.map _).sum_eq
  have hsum2 : (((sortRows rows).filter (fun r => r.meigara = coin)).map
      (fun r => r.yakujoSuryo.getD 0 * r.yakujoRate.getD 0)).sum =
      ((rows.filter (fun r => r.meigara = coin)).map
        (fun r => r.yakujoSuryo.getD 0 * r.yakujoRate.getD 0)).sum :=
    (hperm.map _).sum_eq
  simp only [get_distribution_data, ledgerAvg, distQty, distCost, hlots,
    hledger, hsum1, hsum2, zero_add, List.map_map]
  rfl

/-- Witness for the amended C7, at the single fee-free buy `rBuy`:
both averages are 100. -/
theorem C7_amended_witness :
    (get_distribution_data "BTC" 0 [rBuy]).avg_price =
      ledgerAvg [rBuy] "BTC" := by
  refine C7_amended_distribution_vs_ledger [rBuy] "BTC" 0 (by decide) ?_
  intro r hr _
  rw [List.mem_singleton] at hr
  subst hr
  exact ⟨rfl, rfl, rfl, ⟨1, rfl, by norm_num⟩, ⟨100, rfl, by norm_num⟩⟩
